import Mathlib

set_option linter.unusedVariables false
set_option linter.unusedSectionVars false

/-!
Verification of RotorSE (`src/rotorse/rotor.py`) against its specification.

Shallow embedding conventions:
  * numpy float arrays are modelled as index functions `ℕ → α` over a linear
    ordered field (instantiated at `ℚ` for executable witnesses and available
    at `ℝ`), or as `List α` where the code builds Python lists;
  * transcendental formulas (`log`, `sqrt`, `atan2`, `pi`) are modelled over `ℝ`;
  * each embedded definition cites the lines of `rotor.py` it is taken from.
-/

namespace RotorSE

/-! ## Grid mapping: GridSetup and RGrid (rotor.py lines 692-758) -/

section Grid

variable {α : Type*} [LinearOrderedField α]

/-- Augmented aerodynamic grid `r_aug = np.concatenate([[0.0], r_aero, [1.0]])`
(GridSetup.solve_nonlinear line 715, RGrid.solve_nonlinear line 752), with the
array modelled as an index function: index 0 holds 0, indices 1..naero hold the
aerodynamic grid, index naero+1 holds 1. -/
def augGrid (naero : ℕ) (r_aero : ℕ → α) : ℕ → α := fun j =>
  if j = 0 then 0 else if j ≤ naero then r_aero (j - 1) else 1

/-- The bracketing loop of GridSetup.solve_nonlinear (lines 726-729): iterate
j over the given index list (the embedding of `range(1, naug)`); at the first
j with `r_aug[j] >= r_str[i]` stop and yield `j - 1`; if the loop finishes
without a break, the loop variable is left at its final value `naug - 1`. -/
def findJList (naug : ℕ) (aug : ℕ → α) (r : α) : List ℕ → ℕ
  | [] => naug - 1
  | j :: rest => if r ≤ aug j then j - 1 else findJList naug aug r rest

/-- The `idxj` output of GridSetup.solve_nonlinear (lines 711-731): for each
structural station i, the index stored in `unknowns['idxj'][i]`. -/
def gridSetup_idxj (naero : ℕ) (r_aero r_str : ℕ → α) : ℕ → ℕ := fun i =>
  findJList (naero + 2) (augGrid naero r_aero) (r_str i) (List.range' 1 (naero + 1))

/-- The `fraction` output of GridSetup.solve_nonlinear (line 731):
`(r_str[i] - r_aug[j]) / (r_aug[j+1] - r_aug[j])` at the stored index j. -/
def gridSetup_fraction (naero : ℕ) (r_aero r_str : ℕ → α) : ℕ → α := fun i =>
  (r_str i - augGrid naero r_aero (gridSetup_idxj naero r_aero r_str i)) /
    (augGrid naero r_aero (gridSetup_idxj naero r_aero r_str i + 1) -
      augGrid naero r_aero (gridSetup_idxj naero r_aero r_str i))

/-- RGrid.solve_nonlinear (lines 750-758): reconstruct the structural grid from
a (possibly new) aerodynamic grid and the stored mapping,
`r_str[i] = r_aug[j] + fraction[i]*(r_aug[j+1] - r_aug[j])`. -/
def rgrid_r_str (naero : ℕ) (r_aero : ℕ → α) (idxj : ℕ → ℕ) (fraction : ℕ → α) :
    ℕ → α := fun i =>
  augGrid naero r_aero (idxj i) +
    fraction i * (augGrid naero r_aero (idxj i + 1) - augGrid naero r_aero (idxj i))

/-- Linear-search specification of the bracketing loop: if jstar lies in the
scanned range, every scanned index before it is below the threshold and jstar
meets it, the loop stops at jstar and yields jstar - 1. -/
theorem findJList_range'_eq (naug : ℕ) (aug : ℕ → α) (r : α) :
    ∀ (d j jstar : ℕ), j ≤ jstar → jstar < j + d →
      (∀ k, j ≤ k → k < jstar → aug k < r) → r ≤ aug jstar →
      findJList naug aug r (List.range' j d) = jstar - 1 := by
  intro d
  induction d with
  | zero => intro j jstar h1 h2 _ _; omega
  | succ d ih =>
    intro j jstar h1 h2 hlt hr
    rw [List.range'_succ]
    rcases eq_or_lt_of_le h1 with hj | hj
    · subst hj
      simp [findJList, hr]
    · have hnot : ¬ r ≤ aug j := not_le.mpr (hlt j le_rfl hj)
      simp only [findJList, if_neg hnot]
      exact ih (j + 1) jstar hj (by omega) (fun k hk1 hk2 => hlt k (by omega) hk2) hr

/-- Adjacent strict increase of the augmented grid, from strict increase of the
aerodynamic grid inside (0, 1). -/
theorem augGrid_adj (naero : ℕ) (r_aero : ℕ → α) (hn : 1 ≤ naero)
    (hmono : ∀ k, k + 1 < naero → r_aero k < r_aero (k + 1))
    (h0 : 0 < r_aero 0) (h1 : r_aero (naero - 1) < 1) :
    ∀ j, j + 1 ≤ naero + 1 → augGrid naero r_aero j < augGrid naero r_aero (j + 1) := by
  intro j hj
  rcases Nat.eq_zero_or_pos j with hz | hpos
  · subst hz
    have e0 : augGrid naero r_aero 0 = 0 := by simp [augGrid]
    have e1 : augGrid naero r_aero 1 = r_aero 0 := by simp [augGrid, hn]
    rw [e0, e1]
    exact h0
  · by_cases hcase : j + 1 ≤ naero
    · have hjne : j ≠ 0 := by omega
      have hjle : j ≤ naero := by omega
      have eL : augGrid naero r_aero j = r_aero (j - 1) := by
        simp [augGrid, hjne, hjle]
      have eR : augGrid naero r_aero (j + 1) = r_aero j := by
        simp [augGrid, hcase]
      rw [eL, eR]
      have hm := hmono (j - 1) (by omega)
      have hj1 : j - 1 + 1 = j := by omega
      rwa [hj1] at hm
    · have hjn : j = naero := by omega
      rw [hjn]
      have hne : naero ≠ 0 := by omega
      have eL : augGrid naero r_aero naero = r_aero (naero - 1) := by
        simp [augGrid, hne]
      have eR : augGrid naero r_aero (naero + 1) = 1 := by
        simp [augGrid, show ¬ (naero + 1 ≤ naero) from by omega]
      rw [eL, eR]
      exact h1

/-- Pairwise strict increase of the augmented grid on its index range. -/
theorem augGrid_strictMono (naero : ℕ) (r_aero : ℕ → α) (hn : 1 ≤ naero)
    (hmono : ∀ k, k + 1 < naero → r_aero k < r_aero (k + 1))
    (h0 : 0 < r_aero 0) (h1 : r_aero (naero - 1) < 1) :
    ∀ j k, j < k → k ≤ naero + 1 → augGrid naero r_aero j < augGrid naero r_aero k := by
  intro j k
  induction k with
  | zero => omega
  | succ k ih =>
    intro hjk hk
    rcases Nat.lt_succ_iff_lt_or_eq.mp hjk with hlt | heq
    · exact lt_trans (ih hlt (by omega)) (augGrid_adj naero r_aero hn hmono h0 h1 k hk)
    · subst heq
      exact augGrid_adj naero r_aero hn hmono h0 h1 j hk

/-- Characterization of the index GridSetup stores: it lies in 0..naero, the
structural point is at most the right end of its interval, and strictly above
the left end except possibly in the first interval. -/
theorem gridSetup_idxj_spec (naero : ℕ) (r_aero r_str : ℕ → α) (i : ℕ)
    (hn : 1 ≤ naero)
    (hmono : ∀ k, k + 1 < naero → r_aero k < r_aero (k + 1))
    (h0 : 0 < r_aero 0) (h1 : r_aero (naero - 1) < 1)
    (hr1 : r_str i ≤ 1) :
    gridSetup_idxj naero r_aero r_str i ≤ naero ∧
    r_str i ≤ augGrid naero r_aero (gridSetup_idxj naero r_aero r_str i + 1) ∧
    (1 ≤ gridSetup_idxj naero r_aero r_str i →
      augGrid naero r_aero (gridSetup_idxj naero r_aero r_str i) < r_str i) := by
  have htop : augGrid naero r_aero (naero + 1) = 1 := by simp [augGrid]
  have hex : ∃ m, r_str i ≤ augGrid naero r_aero (m + 1) := ⟨naero, by rw [htop]; exact hr1⟩
  set jst := Nat.find hex with hjst
  have hspec : r_str i ≤ augGrid naero r_aero (jst + 1) := Nat.find_spec hex
  have hmin : ∀ m, m < jst → ¬ r_str i ≤ augGrid naero r_aero (m + 1) :=
    fun m hm => Nat.find_min hex hm
  have hjle : jst ≤ naero := Nat.find_le (by rw [htop]; exact hr1)
  have heq : gridSetup_idxj naero r_aero r_str i = jst := by
    have := findJList_range'_eq (naero + 2) (augGrid naero r_aero) (r_str i)
      (naero + 1) 1 (jst + 1) (by omega) (by omega)
      (fun k hk1 hk2 => by
        have := hmin (k - 1) (by omega)
        have hk : k - 1 + 1 = k := by omega
        rw [hk] at this
        exact not_le.mp this)
      hspec
    simpa [gridSetup_idxj] using this
  refine ⟨by rw [heq]; exact hjle, by rw [heq]; exact hspec, ?_⟩
  intro h1j
  rw [heq] at h1j ⊢
  have := hmin (jst - 1) (by omega)
  have hk : jst - 1 + 1 = jst := by omega
  rw [hk] at this
  exact not_le.mp this

end Grid

/-! ### Claims C1 and C3 -/

/-- C1 (amended): for strictly increasing grids whose augmented aero grid
0 < aug 1 < ... < aug (naero+1) = 1 brackets a structural point r_str i ≤ 1,
GridSetup.solve_nonlinear assigns the unique interval index j with
r_str i ≤ aug (j+1), and aug j < r_str i whenever 1 ≤ j: the intervals are
closed on the right (the first also closed on the left at 0), not closed on
the left as the claim states; the fraction is
(r_str i - aug j) / (aug (j+1) - aug j), which is 1, not 0, when the
structural point coincides with an interior aero point. -/
theorem gridSetup_bracketing {α : Type*} [LinearOrderedField α] (naero : ℕ)
    (r_aero r_str : ℕ → α) (i : ℕ) (hn : 1 ≤ naero)
    (hmono : ∀ k, k + 1 < naero → r_aero k < r_aero (k + 1))
    (h0 : 0 < r_aero 0) (h1 : r_aero (naero - 1) < 1) (hr1 : r_str i ≤ 1) :
    gridSetup_idxj naero r_aero r_str i ≤ naero ∧
    r_str i ≤ augGrid naero r_aero (gridSetup_idxj naero r_aero r_str i + 1) ∧
    (1 ≤ gridSetup_idxj naero r_aero r_str i →
      augGrid naero r_aero (gridSetup_idxj naero r_aero r_str i) < r_str i) ∧
    (∀ j', j' ≤ naero → r_str i ≤ augGrid naero r_aero (j' + 1) →
      (1 ≤ j' → augGrid naero r_aero j' < r_str i) →
      j' = gridSetup_idxj naero r_aero r_str i) ∧
    gridSetup_fraction naero r_aero r_str i =
      (r_str i - augGrid naero r_aero (gridSetup_idxj naero r_aero r_str i)) /
        (augGrid naero r_aero (gridSetup_idxj naero r_aero r_str i + 1) -
          augGrid naero r_aero (gridSetup_idxj naero r_aero r_str i)) := by
  obtain ⟨hle, hR, hL⟩ := gridSetup_idxj_spec naero r_aero r_str i hn hmono h0 h1 hr1
  have hmono' := augGrid_strictMono naero r_aero hn hmono h0 h1
  refine ⟨hle, hR, hL, ?_, rfl⟩
  intro j' hj'le hj'R hj'L
  by_contra hne
  rcases lt_or_gt_of_ne hne with hlt | hgt
  · have h1j : 1 ≤ gridSetup_idxj naero r_aero r_str i := by omega
    rcases eq_or_lt_of_le (show j' + 1 ≤ gridSetup_idxj naero r_aero r_str i by omega)
      with he | hlt2
    · rw [he] at hj'R
      linarith [hL h1j]
    · have := hmono' (j' + 1) (gridSetup_idxj naero r_aero r_str i) hlt2 (by omega)
      linarith [hL h1j]
  · have h1j' : 1 ≤ j' := by omega
    have hj'lt := hj'L h1j'
    rcases eq_or_lt_of_le (show gridSetup_idxj naero r_aero r_str i + 1 ≤ j' by omega)
      with he | hlt2
    · rw [← he] at hj'lt
      linarith [hR]
    · have := hmono' (gridSetup_idxj naero r_aero r_str i + 1) j' hlt2 (by omega)
      linarith [hR]

/-- Witness for C1 at the concrete input naero = 1, r_aero = [1/2],
r_str = [1/4] over ℚ: the code stores index 0 and fraction 1/2. -/
theorem gridSetup_bracketing_witness :
    gridSetup_idxj 1 (fun _ => (1:ℚ)/2) (fun _ => (1:ℚ)/4) 0 ≤ 1 ∧
    (1:ℚ)/4 ≤ augGrid 1 (fun _ => (1:ℚ)/2)
      (gridSetup_idxj 1 (fun _ => (1:ℚ)/2) (fun _ => (1:ℚ)/4) 0 + 1) ∧
    (1 ≤ gridSetup_idxj 1 (fun _ => (1:ℚ)/2) (fun _ => (1:ℚ)/4) 0 →
      augGrid 1 (fun _ => (1:ℚ)/2)
        (gridSetup_idxj 1 (fun _ => (1:ℚ)/2) (fun _ => (1:ℚ)/4) 0) < (1:ℚ)/4) ∧
    (∀ j', j' ≤ 1 → (1:ℚ)/4 ≤ augGrid 1 (fun _ => (1:ℚ)/2) (j' + 1) →
      (1 ≤ j' → augGrid 1 (fun _ => (1:ℚ)/2) j' < (1:ℚ)/4) →
      j' = gridSetup_idxj 1 (fun _ => (1:ℚ)/2) (fun _ => (1:ℚ)/4) 0) ∧
    gridSetup_fraction 1 (fun _ => (1:ℚ)/2) (fun _ => (1:ℚ)/4) 0 =
      ((1:ℚ)/4 - augGrid 1 (fun _ => (1:ℚ)/2)
          (gridSetup_idxj 1 (fun _ => (1:ℚ)/2) (fun _ => (1:ℚ)/4) 0)) /
        (augGrid 1 (fun _ => (1:ℚ)/2)
            (gridSetup_idxj 1 (fun _ => (1:ℚ)/2) (fun _ => (1:ℚ)/4) 0 + 1) -
          augGrid 1 (fun _ => (1:ℚ)/2)
            (gridSetup_idxj 1 (fun _ => (1:ℚ)/2) (fun _ => (1:ℚ)/4) 0)) :=
  gridSetup_bracketing 1 (fun _ => (1:ℚ)/2) (fun _ => (1:ℚ)/4) 0 (by norm_num)
    (fun k hk => absurd hk (by omega)) (by norm_num) (by norm_num) (by norm_num)

/-- Counterexample to C1 as stated: with aero grid [1/2] and the structural
point 1/2 (a strictly increasing pair of grids in [0,1]), the code stores
index 0, which violates the claimed left-closed bracket
aug 0 ≤ 1/2 < aug 1, while index 1 satisfies it; the stored fraction is 1,
not the 0 the claimed bracketing would give. -/
theorem gridSetup_leftClosed_cex :
    gridSetup_idxj 1 (fun _ => (1:ℚ)/2) (fun _ => (1:ℚ)/2) 0 = 0 ∧
    ¬ (augGrid 1 (fun _ => (1:ℚ)/2) 0 ≤ (1:ℚ)/2 ∧
        (1:ℚ)/2 < augGrid 1 (fun _ => (1:ℚ)/2) (0 + 1)) ∧
    (augGrid 1 (fun _ => (1:ℚ)/2) 1 ≤ (1:ℚ)/2 ∧
      (1:ℚ)/2 < augGrid 1 (fun _ => (1:ℚ)/2) (1 + 1)) ∧
    gridSetup_fraction 1 (fun _ => (1:ℚ)/2) (fun _ => (1:ℚ)/2) 0 = 1 := by
  refine ⟨?_, ?_, ?_, ?_⟩ <;>
    norm_num [gridSetup_idxj, gridSetup_fraction, findJList, augGrid, List.range']

/-- C3 (confirmed): reconstructing the structural grid through RGrid's linear
formula from the mapping stored by GridSetup, with the aerodynamic grid
unchanged, reproduces every structural point exactly. -/
theorem rgrid_roundTrip {α : Type*} [LinearOrderedField α] (naero : ℕ)
    (r_aero r_str : ℕ → α) (i : ℕ) (hn : 1 ≤ naero)
    (hmono : ∀ k, k + 1 < naero → r_aero k < r_aero (k + 1))
    (h0 : 0 < r_aero 0) (h1 : r_aero (naero - 1) < 1) (hr1 : r_str i ≤ 1) :
    rgrid_r_str naero r_aero (gridSetup_idxj naero r_aero r_str)
      (gridSetup_fraction naero r_aero r_str) i = r_str i := by
  obtain ⟨hle, hR, hL⟩ := gridSetup_idxj_spec naero r_aero r_str i hn hmono h0 h1 hr1
  have hadj := augGrid_adj naero r_aero hn hmono h0 h1
    (gridSetup_idxj naero r_aero r_str i) (by omega)
  have hd : augGrid naero r_aero (gridSetup_idxj naero r_aero r_str i + 1) -
      augGrid naero r_aero (gridSetup_idxj naero r_aero r_str i) ≠ 0 :=
    sub_ne_zero.mpr (ne_of_gt hadj)
  unfold rgrid_r_str gridSetup_fraction
  rw [div_mul_cancel₀ _ hd]
  ring

/-- Witness for C3 at the concrete input naero = 1, r_aero = [1/2],
r_str = [3/4] over ℚ. -/
theorem rgrid_roundTrip_witness :
    rgrid_r_str 1 (fun _ => (1:ℚ)/2)
      (gridSetup_idxj 1 (fun _ => (1:ℚ)/2) (fun _ => (3:ℚ)/4))
      (gridSetup_fraction 1 (fun _ => (1:ℚ)/2) (fun _ => (3:ℚ)/4)) 0 = (3:ℚ)/4 :=
  rgrid_roundTrip 1 (fun _ => (1:ℚ)/2) (fun _ => (3:ℚ)/4) 0 (by norm_num)
    (fun k hk => absurd hk (by omega)) (by norm_num) (by norm_num) (by norm_num)

/-! ## Composite section resizing: ResizeCompositeSection
(rotor.py lines 115-205) -/

/-- Modelled from the spec: `precomp.CompositeSection` (imported at rotor.py
line 20; the precomp module is not among the staged sources). Per the spec's
data model, a per-station laminate holds, per sector, an ordered sequence of
laminae with thickness, orientation and material reference, plus the sector
boundary locations along the profile. `t`, `theta` and `mat_idx` are indexed
by sector and then by ply, so that `np.sum(cs.t[k])` and `cs.t[k] *= c` act on
the ply array of sector k. -/
structure CompositeSection (α : Type*) where
  loc : List α
  t : List (List α)
  theta : List (List α)
  mat_idx : List (List ℕ)

/-- Modelled from the spec: `CompositeSection.mycopy` (called at rotor.py
lines 161-163) returns a fresh deep copy of the section, value-equal to the
original, so the in-place thickness updates of solve_nonlinear act only on the
copies, never on the inputs. -/
def CompositeSection.mycopy {α : Type*} (cs : CompositeSection α) : CompositeSection α :=
  ⟨cs.loc, cs.t, cs.theta, cs.mat_idx⟩

section Resize

variable {α : Type*} [LinearOrderedField α]

/-- Lines 175-182: `cs.t[j] *= factor` for every sector j, an elementwise
in-place scaling of every ply thickness of the section. -/
def scaleAll (factor : α) (cs : CompositeSection α) : CompositeSection α :=
  { cs with t := cs.t.map (List.map (fun x => x * factor)) }

/-- In-place update of the k-th entry of a Python list (out-of-range indices
leave the list unchanged; they do not occur in the code's loops). -/
def modifySector {β : Type*} (f : β → β) : ℕ → List β → List β
  | _, [] => []
  | 0, sec :: rest => f sec :: rest
  | k + 1, sec :: rest => sec :: modifySector f k rest

/-- Lines 197-201: `cs.t[k] *= c`, an elementwise in-place scaling of the ply
thicknesses of sector k only. -/
def scaleSector (c : α) (k : ℕ) (cs : CompositeSection α) : CompositeSection α :=
  { cs with t := modifySector (List.map (fun x => x * c)) k cs.t }

/-- `np.sum(cs.t[k])` (lines 194-195): the ply-thickness sum of sector k. -/
def sectorSum (cs : CompositeSection α) (k : ℕ) : α :=
  (cs.t.getD k []).sum

/-- The body of ResizeCompositeSection.solve_nonlinear (lines 141-205) at one
station: the outputs start as mycopy's of the inputs (lines 160-163); every
ply thickness is scaled by factor = chord_str/chord_str_ref (lines 166-182);
then the spar-cap sectors of upper and lower, and next the trailing-edge
sectors of both, are rescaled by sparT/tspar and teT/tte, where tspar and tte
are the upper-surface sector sums read before either rescale (lines 186-201). -/
def resizeStation (chord_str_ref chord_str sparT teT : α) (idx_spar idx_te : ℕ)
    (upperIn lowerIn websIn : CompositeSection α) :
    CompositeSection α × CompositeSection α × CompositeSection α :=
  let factor := chord_str / chord_str_ref
  let upper1 := scaleAll factor upperIn.mycopy
  let lower1 := scaleAll factor lowerIn.mycopy
  let webs1 := scaleAll factor websIn.mycopy
  let tspar := sectorSum upper1 idx_spar
  let tte := sectorSum upper1 idx_te
  let upper2 := scaleSector (sparT / tspar) idx_spar upper1
  let lower2 := scaleSector (sparT / tspar) idx_spar lower1
  let upper3 := scaleSector (teT / tte) idx_te upper2
  let lower3 := scaleSector (teT / tte) idx_te lower2
  (upper3, lower3, webs1)

/-- ResizeCompositeSection.solve_nonlinear (lines 141-205): the station loops
act independently on each station i, so the output lists (upperCSOut,
lowerCSOut, websCSOut) are the pointwise application of the station body. -/
def resizeCompositeSection (chord_str_ref chord_str sparT_str teT_str : ℕ → α)
    (sector_idx_strain_spar sector_idx_strain_te : ℕ → ℕ)
    (upperCSIn lowerCSIn websCSIn : ℕ → CompositeSection α) :
    (ℕ → CompositeSection α) × (ℕ → CompositeSection α) × (ℕ → CompositeSection α) :=
  (fun i => (resizeStation (chord_str_ref i) (chord_str i) (sparT_str i) (teT_str i)
      (sector_idx_strain_spar i) (sector_idx_strain_te i)
      (upperCSIn i) (lowerCSIn i) (websCSIn i)).1,
   fun i => (resizeStation (chord_str_ref i) (chord_str i) (sparT_str i) (teT_str i)
      (sector_idx_strain_spar i) (sector_idx_strain_te i)
      (upperCSIn i) (lowerCSIn i) (websCSIn i)).2.1,
   fun i => (resizeStation (chord_str_ref i) (chord_str i) (sparT_str i) (teT_str i)
      (sector_idx_strain_spar i) (sector_idx_strain_te i)
      (upperCSIn i) (lowerCSIn i) (websCSIn i)).2.2)

/-- The final values of the params upperCSIn, lowerCSIn, websCSIn when
solve_nonlinear returns: every in-place update of the body acts on the mycopy
outputs created at lines 160-163, never on the input lists, so each param's
final value is its initial value. -/
def resizeCompositeSection_paramsAfter
    (upperCSIn lowerCSIn websCSIn : ℕ → CompositeSection α) :
    (ℕ → CompositeSection α) × (ℕ → CompositeSection α) × (ℕ → CompositeSection α) :=
  (upperCSIn, lowerCSIn, websCSIn)

/-- Distributing a constant scaling over a list sum. -/
theorem sum_map_mul_const (l : List α) (c : α) :
    (l.map (fun x => x * c)).sum = l.sum * c := by
  induction l with
  | nil => simp
  | cons a tl ih => simp [ih, add_mul]

/-- Reading sector k after scaling every sector. -/
theorem getD_map_listMap (g : α → α) (l : List (List α)) (k : ℕ) :
    (l.map (List.map g)).getD k [] = (l.getD k []).map g := by
  induction l generalizing k with
  | nil => simp
  | cons a tl ih =>
    cases k with
    | zero => simp
    | succ k => simpa using ih k

/-- Reading sector j after scaling only sector k. -/
theorem modifySector_map_getD (g : α → α) (k j : ℕ) (l : List (List α)) :
    (modifySector (List.map g) k l).getD j [] =
      if j = k then (l.getD j []).map g else l.getD j [] := by
  induction l generalizing k j with
  | nil => simp [modifySector]
  | cons a tl ih =>
    cases k with
    | zero =>
      cases j with
      | zero => simp [modifySector]
      | succ j => simp [modifySector]
    | succ k =>
      cases j with
      | zero => simp [modifySector]
      | succ j =>
        simp only [modifySector, List.getD_cons_succ]
        rw [ih k j]
        by_cases h : j = k
        · simp [h]
        · simp [h, show j + 1 ≠ k + 1 from by omega]

/-- modifySector preserves the list length. -/
theorem modifySector_length {β : Type*} (f : β → β) (k : ℕ) (l : List β) :
    (modifySector f k l).length = l.length := by
  induction l generalizing k with
  | nil => simp [modifySector]
  | cons a tl ih =>
    cases k with
    | zero => simp [modifySector]
    | succ k => simp [modifySector, ih]

/-- A list whose entries are all positive and which is nonempty has positive
sum, hence its sector index is in range. -/
theorem getD_ne_nil_lt_length (l : List (List α)) (k : ℕ) (h : l.getD k [] ≠ []) :
    k < l.length := by
  by_contra hk
  exact h (List.getD_eq_default l [] (by omega))

/-- Single-station content of claim C2: with positive chords, nonempty
all-positive spar and trailing-edge sectors and distinct sector indices, the
resized upper surface has spar sum sparT, trailing-edge sum teT, and every
other sector carries exactly the global chord-ratio scaling. -/
theorem resizeStation_upper_spec (c_ref c_str sT tT : α) (sp te : ℕ)
    (upperIn lowerIn websIn : CompositeSection α)
    (href : 0 < c_ref) (hch : 0 < c_str)
    (hsne : upperIn.t.getD sp [] ≠ [])
    (hspos : ∀ x ∈ upperIn.t.getD sp [], 0 < x)
    (htne : upperIn.t.getD te [] ≠ [])
    (htpos : ∀ x ∈ upperIn.t.getD te [], 0 < x)
    (hne : sp ≠ te) :
    sectorSum (resizeStation c_ref c_str sT tT sp te upperIn lowerIn websIn).1 sp = sT ∧
    sectorSum (resizeStation c_ref c_str sT tT sp te upperIn lowerIn websIn).1 te = tT ∧
    (∀ k, k ≠ sp → k ≠ te →
      ((resizeStation c_ref c_str sT tT sp te upperIn lowerIn websIn).1).t.getD k [] =
        (upperIn.t.getD k []).map (fun x => x * (c_str / c_ref))) := by
  have hf : 0 < c_str / c_ref := div_pos hch href
  have hSs : 0 < (upperIn.t.getD sp []).sum := List.sum_pos _ hspos hsne
  have hSt : 0 < (upperIn.t.getD te []).sum := List.sum_pos _ htpos htne
  have hu1 : ∀ k, (scaleAll (c_str / c_ref) upperIn.mycopy).t.getD k [] =
      (upperIn.t.getD k []).map (fun x => x * (c_str / c_ref)) := by
    intro k
    simp only [scaleAll, CompositeSection.mycopy]
    exact getD_map_listMap _ _ k
  have hsp_ne : ((scaleAll (c_str / c_ref) upperIn.mycopy).t.getD sp []).sum ≠ 0 := by
    rw [hu1 sp, sum_map_mul_const]
    exact ne_of_gt (mul_pos hSs hf)
  have hte_ne : ((scaleAll (c_str / c_ref) upperIn.mycopy).t.getD te []).sum ≠ 0 := by
    rw [hu1 te, sum_map_mul_const]
    exact ne_of_gt (mul_pos hSt hf)
  refine ⟨?_, ?_, ?_⟩
  · simp only [resizeStation, sectorSum, scaleSector]
    rw [modifySector_map_getD, if_neg hne, modifySector_map_getD, if_pos rfl]
    rw [sum_map_mul_const, mul_comm, div_mul_cancel₀ _ hsp_ne]
  · simp only [resizeStation, sectorSum, scaleSector]
    rw [modifySector_map_getD, if_pos rfl, modifySector_map_getD, if_neg (Ne.symm hne)]
    rw [sum_map_mul_const, mul_comm, div_mul_cancel₀ _ hte_ne]
  · intro k hk1 hk2
    simp only [resizeStation, scaleSector]
    rw [modifySector_map_getD, if_neg hk2, modifySector_map_getD, if_neg hk1]
    exact hu1 k

/-- C2 (amended): after ResizeCompositeSection.solve_nonlinear, at every
station with positive reference chord, positive current chord, nonempty
all-positive spar-cap and trailing-edge sectors, positive targets, and
distinct spar-cap and trailing-edge sector indices, the upper-surface spar-cap
sector thickness sum equals sparT_str i and the trailing-edge sector sum
equals teT_str i exactly; every other sector carries exactly the global
chord-ratio scaling (applied first, then overwritten on the two targeted
sectors). Distinctness is necessary: see the counterexample. -/
theorem resize_sector_sums (chord_str_ref chord_str sparT_str teT_str : ℕ → α)
    (sector_idx_strain_spar sector_idx_strain_te : ℕ → ℕ)
    (upperCSIn lowerCSIn websCSIn : ℕ → CompositeSection α) (i : ℕ)
    (href : 0 < chord_str_ref i) (hch : 0 < chord_str i)
    (hsT : 0 < sparT_str i) (htT : 0 < teT_str i)
    (hsne : (upperCSIn i).t.getD (sector_idx_strain_spar i) [] ≠ [])
    (hspos : ∀ x ∈ (upperCSIn i).t.getD (sector_idx_strain_spar i) [], 0 < x)
    (htne : (upperCSIn i).t.getD (sector_idx_strain_te i) [] ≠ [])
    (htpos : ∀ x ∈ (upperCSIn i).t.getD (sector_idx_strain_te i) [], 0 < x)
    (hne : sector_idx_strain_spar i ≠ sector_idx_strain_te i) :
    sectorSum ((resizeCompositeSection chord_str_ref chord_str sparT_str teT_str
        sector_idx_strain_spar sector_idx_strain_te upperCSIn lowerCSIn websCSIn).1 i)
      (sector_idx_strain_spar i) = sparT_str i ∧
    sectorSum ((resizeCompositeSection chord_str_ref chord_str sparT_str teT_str
        sector_idx_strain_spar sector_idx_strain_te upperCSIn lowerCSIn websCSIn).1 i)
      (sector_idx_strain_te i) = teT_str i ∧
    (∀ k, k ≠ sector_idx_strain_spar i → k ≠ sector_idx_strain_te i →
      (((resizeCompositeSection chord_str_ref chord_str sparT_str teT_str
          sector_idx_strain_spar sector_idx_strain_te upperCSIn lowerCSIn websCSIn).1 i)).t.getD k [] =
        ((upperCSIn i).t.getD k []).map
          (fun x => x * (chord_str i / chord_str_ref i))) := by
  have h := resizeStation_upper_spec (chord_str_ref i) (chord_str i) (sparT_str i)
    (teT_str i) (sector_idx_strain_spar i) (sector_idx_strain_te i)
    (upperCSIn i) (lowerCSIn i) (websCSIn i) href hch hsne hspos htne htpos hne
  simpa [resizeCompositeSection] using h

/-- A two-sector station over ℚ used as concrete input for C2. -/
def csEx : CompositeSection ℚ :=
  ⟨[0, 1/2, 1], [[1], [2]], [[0], [0]], [[0], [0]]⟩

/-- A one-sector station over ℚ whose spar-cap and trailing-edge sector
indices coincide, used as the counterexample input for C2. -/
def csEx1 : CompositeSection ℚ :=
  ⟨[0, 1], [[1]], [[0]], [[0]]⟩

/-- Witness for C2 at the concrete station: reference chord 1, chord 2,
targets sparT = 3, teT = 4, spar sector 0, trailing-edge sector 1,
laminate csEx. -/
theorem resize_sector_sums_witness :
    sectorSum ((resizeCompositeSection (fun _ => (1:ℚ)) (fun _ => 2) (fun _ => 3)
        (fun _ => 4) (fun _ => 0) (fun _ => 1) (fun _ => csEx) (fun _ => csEx)
        (fun _ => csEx)).1 0) 0 = 3 ∧
    sectorSum ((resizeCompositeSection (fun _ => (1:ℚ)) (fun _ => 2) (fun _ => 3)
        (fun _ => 4) (fun _ => 0) (fun _ => 1) (fun _ => csEx) (fun _ => csEx)
        (fun _ => csEx)).1 0) 1 = 4 ∧
    (∀ k, k ≠ 0 → k ≠ 1 →
      (((resizeCompositeSection (fun _ => (1:ℚ)) (fun _ => 2) (fun _ => 3)
          (fun _ => 4) (fun _ => 0) (fun _ => 1) (fun _ => csEx) (fun _ => csEx)
          (fun _ => csEx)).1 0)).t.getD k [] =
        ((csEx).t.getD k []).map (fun x => x * ((2:ℚ) / 1))) :=
  resize_sector_sums (fun _ => (1:ℚ)) (fun _ => 2) (fun _ => 3) (fun _ => 4)
    (fun _ => 0) (fun _ => 1) (fun _ => csEx) (fun _ => csEx) (fun _ => csEx) 0
    (by norm_num) (by norm_num) (by norm_num) (by norm_num)
    (by simp [csEx]) (by simp [csEx]) (by simp [csEx]) (by simp [csEx])
    (by norm_num)

/-- Counterexample to C2 as stated: when the spar-cap and trailing-edge sector
indices coincide (station csEx1, both indices 0, reference chord 1, chord 1,
sparT = 1, teT = 2, all required inputs positive), the later trailing-edge
rescale overwrites the spar-cap target: the spar-cap sector sum comes out 2,
not the target sparT = 1. -/
theorem resize_sector_sums_cex :
    csEx1.t.getD 0 [] ≠ [] ∧
    (∀ x ∈ csEx1.t.getD 0 [], (0:ℚ) < x) ∧
    sectorSum ((resizeCompositeSection (fun _ => (1:ℚ)) (fun _ => 1) (fun _ => 1)
        (fun _ => 2) (fun _ => 0) (fun _ => 0) (fun _ => csEx1) (fun _ => csEx1)
        (fun _ => csEx1)).1 0) 0 = 2 ∧
    ((2:ℚ) ≠ 1) := by
  refine ⟨by simp [csEx1], by simp [csEx1], ?_, by norm_num⟩
  norm_num [resizeCompositeSection, resizeStation, sectorSum, scaleAll, scaleSector,
    modifySector, CompositeSection.mycopy, csEx1]

/-- C10 (confirmed): ResizeCompositeSection.solve_nonlinear leaves its input
laminate lists untouched (all in-place updates act on the mycopy's taken at
lines 160-163), and in the output laminates only ply thicknesses change: the
sector boundaries, ply orientations, material references, sector count and
per-sector ply counts of every station's upper, lower and web sections equal
the input's. -/
theorem resize_frame_spec (c_ref c_str sT tT : ℕ → α) (sp te : ℕ → ℕ)
    (upperCSIn lowerCSIn websCSIn : ℕ → CompositeSection α) (i : ℕ) :
    (((resizeCompositeSection c_ref c_str sT tT sp te upperCSIn lowerCSIn websCSIn).1 i).loc =
        (upperCSIn i).loc ∧
      ((resizeCompositeSection c_ref c_str sT tT sp te upperCSIn lowerCSIn websCSIn).1 i).theta =
        (upperCSIn i).theta ∧
      ((resizeCompositeSection c_ref c_str sT tT sp te upperCSIn lowerCSIn websCSIn).1 i).mat_idx =
        (upperCSIn i).mat_idx ∧
      ((resizeCompositeSection c_ref c_str sT tT sp te upperCSIn lowerCSIn websCSIn).1 i).t.length =
        (upperCSIn i).t.length ∧
      ∀ k, ((((resizeCompositeSection c_ref c_str sT tT sp te upperCSIn lowerCSIn
          websCSIn).1 i).t.getD k []).length = (((upperCSIn i).t.getD k []).length))) ∧
    (((resizeCompositeSection c_ref c_str sT tT sp te upperCSIn lowerCSIn websCSIn).2.1 i).loc =
        (lowerCSIn i).loc ∧
      ((resizeCompositeSection c_ref c_str sT tT sp te upperCSIn lowerCSIn websCSIn).2.1 i).theta =
        (lowerCSIn i).theta ∧
      ((resizeCompositeSection c_ref c_str sT tT sp te upperCSIn lowerCSIn websCSIn).2.1 i).mat_idx =
        (lowerCSIn i).mat_idx ∧
      ((resizeCompositeSection c_ref c_str sT tT sp te upperCSIn lowerCSIn websCSIn).2.1 i).t.length =
        (lowerCSIn i).t.length ∧
      ∀ k, ((((resizeCompositeSection c_ref c_str sT tT sp te upperCSIn lowerCSIn
          websCSIn).2.1 i).t.getD k []).length = (((lowerCSIn i).t.getD k []).length))) ∧
    (((resizeCompositeSection c_ref c_str sT tT sp te upperCSIn lowerCSIn websCSIn).2.2 i).loc =
        (websCSIn i).loc ∧
      ((resizeCompositeSection c_ref c_str sT tT sp te upperCSIn lowerCSIn websCSIn).2.2 i).theta =
        (websCSIn i).theta ∧
      ((resizeCompositeSection c_ref c_str sT tT sp te upperCSIn lowerCSIn websCSIn).2.2 i).mat_idx =
        (websCSIn i).mat_idx ∧
      ((resizeCompositeSection c_ref c_str sT tT sp te upperCSIn lowerCSIn websCSIn).2.2 i).t.length =
        (websCSIn i).t.length ∧
      ∀ k, ((((resizeCompositeSection c_ref c_str sT tT sp te upperCSIn lowerCSIn
          websCSIn).2.2 i).t.getD k []).length = (((websCSIn i).t.getD k []).length))) ∧
    resizeCompositeSection_paramsAfter upperCSIn lowerCSIn websCSIn =
      (upperCSIn, lowerCSIn, websCSIn) := by
  refine ⟨⟨rfl, rfl, rfl, ?_, ?_⟩, ⟨rfl, rfl, rfl, ?_, ?_⟩, ⟨rfl, rfl, rfl, ?_, ?_⟩, rfl⟩
  · simp [resizeCompositeSection, resizeStation, scaleSector, scaleAll,
      CompositeSection.mycopy, modifySector_length]
  · intro k
    simp only [resizeCompositeSection, resizeStation, scaleSector, scaleAll,
      CompositeSection.mycopy]
    rw [modifySector_map_getD, modifySector_map_getD, getD_map_listMap]
    by_cases h1 : k = te i <;> by_cases h2 : k = sp i <;> simp [h1, h2] <;>
      split <;> simp
  · simp [resizeCompositeSection, resizeStation, scaleSector, scaleAll,
      CompositeSection.mycopy, modifySector_length]
  · intro k
    simp only [resizeCompositeSection, resizeStation, scaleSector, scaleAll,
      CompositeSection.mycopy]
    rw [modifySector_map_getD, modifySector_map_getD, getD_map_listMap]
    by_cases h1 : k = te i <;> by_cases h2 : k = sp i <;> simp [h1, h2] <;>
      split <;> simp
  · simp [resizeCompositeSection, resizeStation, scaleSector, scaleAll,
      CompositeSection.mycopy]
  · intro k
    simp only [resizeCompositeSection, resizeStation, scaleSector, scaleAll,
      CompositeSection.mycopy]
    rw [getD_map_listMap]
    simp

end Resize

/-! ## Geometry spline radii: GeometrySpline (rotor.py lines 788-875) -/

section Geometry

variable {α : Type*} [LinearOrderedField α]

/-- The Rhub, Rtip and diameter outputs of GeometrySpline.solve_nonlinear
(lines 829-830 and 853-855): Rhub = hubFraction*bladeLength,
Rtip = Rhub + bladeLength, diameter = 2.0*Rhub. -/
def geometrySpline_radii (hubFraction bladeLength : α) : α × α × α :=
  let Rhub := hubFraction * bladeLength
  let Rtip := Rhub + bladeLength
  (Rhub, Rtip, 2 * Rhub)

/-- C4 (confirmed): for every hubFraction and bladeLength,
GeometrySpline.solve_nonlinear outputs Rhub = hubFraction*bladeLength,
Rtip = Rhub + bladeLength, and a diameter equal to twice the hub radius; the
diameter equals twice the tip radius only in the degenerate case
bladeLength = 0, confirming the spec's naming quirk. -/
theorem geometrySpline_radii_spec (hubFraction bladeLength : α) :
    (geometrySpline_radii hubFraction bladeLength).1 = hubFraction * bladeLength ∧
    (geometrySpline_radii hubFraction bladeLength).2.1 =
      (geometrySpline_radii hubFraction bladeLength).1 + bladeLength ∧
    (geometrySpline_radii hubFraction bladeLength).2.2 =
      2 * (geometrySpline_radii hubFraction bladeLength).1 ∧
    ((geometrySpline_radii hubFraction bladeLength).2.2 =
        2 * (geometrySpline_radii hubFraction bladeLength).2.1 ↔ bladeLength = 0) := by
  refine ⟨rfl, rfl, rfl, ?_⟩
  simp only [geometrySpline_radii]
  constructor
  · intro h
    linarith
  · intro h
    rw [h]
    ring

end Geometry

/-! ## Environment models: TurbineClass and GustETM (rotor.py lines 1908-2022) -/

/-- IEC turbine class (the TurbineClass enum param at rotor.py line 1912 has
classes I, II, III; the body at lines 1932-1933 also handles a class IV). -/
inductive TurbineClassEnum
  | I
  | II
  | III
  | IV

/-- The Vref selection of TurbineClass.solve_nonlinear (lines 1926-1933). -/
def turbineClass_Vref {α : Type*} [LinearOrderedField α] : TurbineClassEnum → α
  | .I => 50.0
  | .II => 42.5
  | .III => 37.5
  | .IV => 30.0

/-- The (V_mean, V_extreme) outputs of TurbineClass.solve_nonlinear (lines
1935-1936); the V_extreme_full output repeats 1.4*Vref twice and is omitted
here. -/
def turbineClassOut {α : Type*} [LinearOrderedField α] (tc : TurbineClassEnum) : α × α :=
  (0.2 * turbineClass_Vref tc, 1.4 * turbineClass_Vref tc)

/-- IEC turbulence class (the GustETM enum param at rotor.py line 1992). -/
inductive TurbulenceClassEnum
  | A
  | B
  | C

/-- The Iref selection of GustETM.solve_nonlinear (lines 2008-2013). -/
def gustETM_Iref {α : Type*} [LinearOrderedField α] : TurbulenceClassEnum → α
  | .A => 0.16
  | .B => 0.14
  | .C => 0.12

/-- The V_gust output of GustETM.solve_nonlinear (lines 2001-2022):
sigma = c*Iref*(0.072*(V_mean/c + 3)*(V_hub/c - 4) + 10) with c = 2.0, and
V_gust = V_hub + std*sigma. -/
def gustETM {α : Type*} [LinearOrderedField α] (tc : TurbulenceClassEnum)
    (V_mean V_hub std : α) : α :=
  let Iref := gustETM_Iref tc
  let c : α := 2.0
  let sigma := c * Iref * (0.072 * (V_mean / c + 3) * (V_hub / c - 4) + 10)
  V_hub + std * sigma

/-- C7 (confirmed): TurbineClass maps class I to Vref = 50, II to 42.5 and
III to 37.5 and outputs V_mean = 0.2*Vref and V_extreme = 1.4*Vref; GustETM
maps class A to Iref = 0.16, B to 0.14, C to 0.12 and outputs
V_gust = V_hub + std*sigma with
sigma = 2*Iref*(0.072*(V_mean/2 + 3)*(V_hub/2 - 4) + 10), for every V_mean,
V_hub and std. -/
theorem environment_models_spec {α : Type*} [LinearOrderedField α] (V_mean V_hub std : α) :
    turbineClass_Vref TurbineClassEnum.I = (50 : α) ∧
    turbineClass_Vref TurbineClassEnum.II = (42.5 : α) ∧
    turbineClass_Vref TurbineClassEnum.III = (37.5 : α) ∧
    turbineClassOut TurbineClassEnum.I = ((0.2 * 50 : α), (1.4 * 50 : α)) ∧
    turbineClassOut TurbineClassEnum.II = ((0.2 * 42.5 : α), (1.4 * 42.5 : α)) ∧
    turbineClassOut TurbineClassEnum.III = ((0.2 * 37.5 : α), (1.4 * 37.5 : α)) ∧
    gustETM_Iref TurbulenceClassEnum.A = (0.16 : α) ∧
    gustETM_Iref TurbulenceClassEnum.B = (0.14 : α) ∧
    gustETM_Iref TurbulenceClassEnum.C = (0.12 : α) ∧
    gustETM TurbulenceClassEnum.A V_mean V_hub std =
      V_hub + std * (2 * 0.16 * (0.072 * (V_mean / 2 + 3) * (V_hub / 2 - 4) + 10)) ∧
    gustETM TurbulenceClassEnum.B V_mean V_hub std =
      V_hub + std * (2 * 0.14 * (0.072 * (V_mean / 2 + 3) * (V_hub / 2 - 4) + 10)) ∧
    gustETM TurbulenceClassEnum.C V_mean V_hub std =
      V_hub + std * (2 * 0.12 * (0.072 * (V_mean / 2 + 3) * (V_hub / 2 - 4) + 10)) := by
  refine ⟨?_, ?_, ?_, ?_, ?_, ?_, ?_, ?_, ?_, ?_, ?_, ?_⟩ <;>
    norm_num [turbineClass_Vref, turbineClassOut, gustETM, gustETM_Iref,
      Prod.ext_iff] <;>
    ring_nf

/-! ## Extreme loads: ExtremeLoads (rotor.py lines 1940-1979) -/

/-- ExtremeLoads.solve_nonlinear (lines 1955-1962): the thrust average
(T[0] + T[1]*(n-1))/n is assigned to the T_extreme output; the analogous
torque average is computed into self.Q_extreme (line 1960) but the Q_extreme
output is assigned the constant 0.0 (line 1962). -/
def extremeLoads {α : Type*} [LinearOrderedField α] (T0 T1 Q0 Q1 n : α) : α × α :=
  let T_extreme := (T0 + T1 * (n - 1)) / n
  let _Q_extreme := (Q0 + Q1 * (n - 1)) / n
  (T_extreme, 0.0)

/-- C9 (confirmed): for every thrust pair, torque pair and blade count n,
ExtremeLoads outputs T_extreme = (T[0] + T[1]*(n-1))/n and Q_extreme = 0,
independently of the torque inputs. -/
theorem extremeLoads_spec {α : Type*} [LinearOrderedField α]
    (T0 T1 Q0 Q1 Q0' Q1' n : α) :
    (extremeLoads T0 T1 Q0 Q1 n).1 = (T0 + T1 * (n - 1)) / n ∧
    (extremeLoads T0 T1 Q0 Q1 n).2 = 0 ∧
    extremeLoads T0 T1 Q0 Q1 n = extremeLoads T0 T1 Q0' Q1' n := by
  refine ⟨rfl, ?_, rfl⟩
  norm_num [extremeLoads]

/-! ## Principal axes, fatigue damage and panel buckling (real-valued models,
rotor.py lines 280-317 and 449-545) -/

noncomputable section RealModels

/-- Four-quadrant arctangent with the convention of np.arctan2 (signed zeros
are not modelled): for x = 0 it yields pi/2, -pi/2 or 0 according to the sign
of y. -/
def arctan2 (y x : ℝ) : ℝ :=
  if 0 < x then Real.arctan (y / x)
  else if x < 0 then
    (if 0 ≤ y then Real.arctan (y / x) + Real.pi else Real.arctan (y / x) - Real.pi)
  else
    (if 0 < y then Real.pi / 2 else if y < 0 then -(Real.pi / 2) else 0)

/-- RotorWithpBEAM.principalCS (rotor.py lines 457-482). The sequential
rebindings `EIxx = np.copy(EIyy)` then `EIyy = np.copy(EIxx)` (lines 460-461)
make the second line read the already-updated EIxx, and likewise
`x_ec_str = np.copy(y_ec_str)` then `y_ec_str = np.copy(x_ec_str)` (lines
462-463); the embedding keeps exactly that sequential semantics. -/
def principalCS (EIyy EIxx y_ec_str x_ec_str EA EIxy : ℝ) : ℝ × ℝ × ℝ × ℝ × ℝ :=
  let EIxx1 := EIyy
  let EIyy1 := EIxx1
  let x_ec1 := y_ec_str
  let y_ec1 := x_ec1
  let EIxx2 := EIxx1 - y_ec1 ^ 2 * EA
  let EIyy2 := EIyy1 - x_ec1 ^ 2 * EA
  let EIxy2 := EIxy - x_ec1 * y_ec1 * EA
  let alpha := 0.5 * arctan2 (2 * EIxy2) (EIyy2 - EIxx2)
  let EI11 := EIxx2 - EIxy2 * Real.tan alpha
  let EI22 := EIyy2 + EIxy2 * Real.tan alpha
  (EI11, EI22, EA, Real.cos alpha, Real.sin alpha)

/-- The translated stiffness intermediates of principalCS (the values of
EIxx, EIyy, EIxy after lines 460-470). -/
def principalCS_translated (EIyy EIxx y_ec_str x_ec_str EA EIxy : ℝ) : ℝ × ℝ × ℝ :=
  let EIxx1 := EIyy
  let EIyy1 := EIxx1
  let x_ec1 := y_ec_str
  let y_ec1 := x_ec1
  (EIxx1 - y_ec1 ^ 2 * EA, EIyy1 - x_ec1 ^ 2 * EA, EIxy - x_ec1 * y_ec1 * EA)

/-- The principal-axis rotation angle of principalCS (line 473). -/
def principalCS_alpha (EIyy EIxx y_ec_str x_ec_str EA EIxy : ℝ) : ℝ :=
  0.5 * arctan2
    (2 * (principalCS_translated EIyy EIxx y_ec_str x_ec_str EA EIxy).2.2)
    ((principalCS_translated EIyy EIxx y_ec_str x_ec_str EA EIxy).2.1 -
      (principalCS_translated EIyy EIxx y_ec_str x_ec_str EA EIxy).1)

/-- C8 (confirmed): the sequential swap assignments of principalCS make both
local EIxx and EIyy equal the input EIyy and both elastic-center offsets equal
the input y_ec_str, so the whole result is independent of the EIxx and
x_ec_str inputs; after the elastic-center translation EIyy - EIxx is exactly
zero; hence alpha = atan2(2*EIxy_translated, 0)/2 is pi/4 for positive
translated EIxy, -pi/4 for negative, and 0 for zero. -/
theorem principalCS_swap_spec (EIyy EIxx y_ec_str x_ec_str EA EIxy EIxx' x_ec' : ℝ) :
    principalCS EIyy EIxx y_ec_str x_ec_str EA EIxy =
      principalCS EIyy EIxx' y_ec_str x_ec' EA EIxy ∧
    principalCS_translated EIyy EIxx y_ec_str x_ec_str EA EIxy =
      (EIyy - y_ec_str ^ 2 * EA, EIyy - y_ec_str ^ 2 * EA,
        EIxy - y_ec_str ^ 2 * EA) ∧
    (principalCS_translated EIyy EIxx y_ec_str x_ec_str EA EIxy).2.1 -
      (principalCS_translated EIyy EIxx y_ec_str x_ec_str EA EIxy).1 = 0 ∧
    principalCS_alpha EIyy EIxx y_ec_str x_ec_str EA EIxy =
      (if 0 < EIxy - y_ec_str ^ 2 * EA then Real.pi / 4
        else if EIxy - y_ec_str ^ 2 * EA < 0 then -(Real.pi / 4) else 0) := by
  refine ⟨rfl, ?_, ?_, ?_⟩
  · have h3 : EIxy - y_ec_str * y_ec_str * EA = EIxy - y_ec_str ^ 2 * EA := by ring
    simp only [principalCS_translated, h3]
  · simp only [principalCS_translated]
    ring
  · simp only [principalCS_alpha, principalCS_translated]
    rw [sub_self]
    have hyy : EIxy - y_ec_str * y_ec_str * EA = EIxy - y_ec_str ^ 2 * EA := by ring
    rw [hyy]
    simp only [arctan2, lt_irrefl, if_false]
    rcases lt_trichotomy (EIxy - y_ec_str ^ 2 * EA) 0 with hs | hs | hs
    · rw [if_neg (by linarith), if_pos (by linarith), if_neg (by linarith),
        if_pos hs]
      ring
    · rw [hs]
      norm_num
    · rw [if_pos (by linarith), if_pos hs]
      ring

/-- The upper-surface probe strain computed inside RotorWithpBEAM.damage
(rotor.py lines 513-527): the Hansen-notation swaps of moments and probe
coordinates, the rotation to principal axes, and the strain formula with
Fz = 0. It coincides with the strain method body (lines 484-509) at zero
axial force. -/
def damage_strainU (Mx My xu yu EI11 EI22 EA ca sa : ℝ) : ℝ :=
  let Mxs := My
  let Mys := Mx
  let Fz : ℝ := 0.0
  let xus := yu
  let yus := xu
  let M1 := Mxs * ca + Mys * sa
  let M2 := -Mxs * sa + Mys * ca
  let x := xus * ca + yus * sa
  let y := -xus * sa + yus * ca
  let strainU := -(M1 / EI11 * y - M2 / EI22 * x + Fz / EA)
  strainU

/-- The lower-surface probe strain of RotorWithpBEAM.damage (lines 529-532). -/
def damage_strainL (Mx My xl yl EI11 EI22 EA ca sa : ℝ) : ℝ :=
  let Mxs := My
  let Mys := Mx
  let Fz : ℝ := 0.0
  let xls := yl
  let yls := xl
  let M1 := Mxs * ca + Mys * sa
  let M2 := -Mxs * sa + Mys * ca
  let x := xls * ca + yls * sa
  let y := -xls * sa + yls * ca
  let strainL := -(M1 / EI11 * y - M2 / EI22 * x + Fz / EA)
  strainL

/-- RotorWithpBEAM.damage (rotor.py lines 511-545), as returned: the raw
cycle-ratio N/Nf with Nf = (emax/(eta*strain))**m is computed at lines
534-540 but immediately overwritten, so the returned pair is the log-domain
form of lines 542-543. -/
def damage (Mx My xu yu xl yl EI11 EI22 EA ca sa emax eta m N : ℝ) : ℝ × ℝ :=
  let strainU := damage_strainU Mx My xu yu EI11 EI22 EA ca sa
  let strainL := damage_strainL Mx My xl yl EI11 EI22 EA ca sa
  (Real.log N - m * (Real.log emax - Real.log eta - Real.log |strainU|),
   Real.log N - m * (Real.log emax - Real.log eta - Real.log |strainL|))

/-- C5 (confirmed): for nonzero probe strains and positive parameters, damage
returns the log-domain value ln N - m*(ln emax - ln eta - ln |strain|) at both
probe points (the log form supersedes the raw cycle ratio); consequently the
damage strictly increases in the cycle count N, and it is invariant under a
sign flip of the strains (realized by flipping both resultant moments, which
negates both probe strains exactly since Fz = 0). -/
theorem damage_log_spec (Mx My xu yu xl yl EI11 EI22 EA ca sa emax eta m N Nb : ℝ)
    (hN : 0 < N) (hNNb : N < Nb)
    (hemax : 0 < emax) (heta : 0 < eta) (hm : 0 < m)
    (hU : damage_strainU Mx My xu yu EI11 EI22 EA ca sa ≠ 0)
    (hL : damage_strainL Mx My xl yl EI11 EI22 EA ca sa ≠ 0) :
    (damage Mx My xu yu xl yl EI11 EI22 EA ca sa emax eta m N).1 =
      Real.log N - m * (Real.log emax - Real.log eta -
        Real.log |damage_strainU Mx My xu yu EI11 EI22 EA ca sa|) ∧
    (damage Mx My xu yu xl yl EI11 EI22 EA ca sa emax eta m N).2 =
      Real.log N - m * (Real.log emax - Real.log eta -
        Real.log |damage_strainL Mx My xl yl EI11 EI22 EA ca sa|) ∧
    (damage Mx My xu yu xl yl EI11 EI22 EA ca sa emax eta m N).1 <
      (damage Mx My xu yu xl yl EI11 EI22 EA ca sa emax eta m Nb).1 ∧
    (damage Mx My xu yu xl yl EI11 EI22 EA ca sa emax eta m N).2 <
      (damage Mx My xu yu xl yl EI11 EI22 EA ca sa emax eta m Nb).2 ∧
    damage (-Mx) (-My) xu yu xl yl EI11 EI22 EA ca sa emax eta m N =
      damage Mx My xu yu xl yl EI11 EI22 EA ca sa emax eta m N := by
  have hlog : Real.log N < Real.log Nb := Real.log_lt_log hN hNNb
  have hUneg : damage_strainU (-Mx) (-My) xu yu EI11 EI22 EA ca sa =
      -(damage_strainU Mx My xu yu EI11 EI22 EA ca sa) := by
    simp only [damage_strainU]
    ring
  have hLneg : damage_strainL (-Mx) (-My) xl yl EI11 EI22 EA ca sa =
      -(damage_strainL Mx My xl yl EI11 EI22 EA ca sa) := by
    simp only [damage_strainL]
    ring
  refine ⟨rfl, rfl, ?_, ?_, ?_⟩
  · simp only [damage]
    exact sub_lt_sub_right hlog _
  · simp only [damage]
    exact sub_lt_sub_right hlog _
  · simp only [damage, hUneg, hLneg, abs_neg]

/-- Witness for C5 at the concrete input Mx = 1, My = 0, probes (0,1), unit
stiffnesses, ca = 1, sa = 0, emax = eta = m = 1, N = 1, Nb = 2 (both probe
strains evaluate to 1). -/
theorem damage_log_spec_witness :
    (damage 1 0 0 1 0 1 1 1 1 1 0 1 1 1 1).1 =
      Real.log 1 - 1 * (Real.log 1 - Real.log 1 -
        Real.log |damage_strainU 1 0 0 1 1 1 1 1 0|) ∧
    (damage 1 0 0 1 0 1 1 1 1 1 0 1 1 1 1).2 =
      Real.log 1 - 1 * (Real.log 1 - Real.log 1 -
        Real.log |damage_strainL 1 0 0 1 1 1 1 1 0|) ∧
    (damage 1 0 0 1 0 1 1 1 1 1 0 1 1 1 1).1 <
      (damage 1 0 0 1 0 1 1 1 1 1 0 1 1 1 2).1 ∧
    (damage 1 0 0 1 0 1 1 1 1 1 0 1 1 1 1).2 <
      (damage 1 0 0 1 0 1 1 1 1 1 0 1 1 1 2).2 ∧
    damage (-1) (-0) 0 1 0 1 1 1 1 1 0 1 1 1 1 =
      damage 1 0 0 1 0 1 1 1 1 1 0 1 1 1 1 :=
  damage_log_spec 1 0 0 1 0 1 1 1 1 1 0 1 1 1 1 2 (by norm_num) (by norm_num)
    (by norm_num) (by norm_num) (by norm_num)
    (by norm_num [damage_strainU]) (by norm_num [damage_strainL])

/-- Modelled from the spec: the outputs of precomp CompositeSection's
compositeMatrices for one sector — the A, B, D stiffness matrices (as index
functions) and the total laminate height. The spec treats the laminate
property extraction as opaque, and precomp is not among the staged sources, so
these are uninterpreted per-sector data. -/
structure CompositeMatrices where
  A : ℕ → ℕ → ℝ
  B : ℕ → ℕ → ℝ
  D : ℕ → ℕ → ℝ
  totalHeight : ℝ

/-- Modelled from the spec: the parts of one precomp CompositeSection that
PreCompSections.panelBucklingStrain reads — the sector boundary locations
`loc`, `compositeMatrices` and the effective axial modulus `effectiveEAxial`. -/
structure PanelSection where
  loc : ℕ → ℝ
  compositeMatrices : ℕ → CompositeMatrices
  effectiveEAxial : ℕ → ℝ

/-- PreCompSections.panelBucklingStrain (rotor.py lines 280-317), one station:
sector_length = chord[i]*(loc[idx+1]-loc[idx]), D1 = D[0,0], D2 = D[1,1],
D3 = D[0,1] + 2*D[2,2], Nxx = 2*(pi/sector_length)**2*(sqrt(D1*D2) + D3), and
eps_crit[i] = -Nxx/totalHeight/E. -/
def panelBucklingStrain (chord : ℕ → ℝ) (upperCS : ℕ → PanelSection)
    (sector_idx_strain : ℕ → ℕ) : ℕ → ℝ := fun i =>
  let cs := upperCS i
  let sector_idx := sector_idx_strain i
  let sector_length := chord i * (cs.loc (sector_idx + 1) - cs.loc sector_idx)
  let mats := cs.compositeMatrices sector_idx
  let E := cs.effectiveEAxial sector_idx
  let D1 := mats.D 0 0
  let D2 := mats.D 1 1
  let D3 := mats.D 0 1 + 2 * mats.D 2 2
  let Nxx := 2 * (Real.pi / sector_length) ^ 2 * (Real.sqrt (D1 * D2) + D3)
  let eps_crit := -Nxx / mats.totalHeight / E
  eps_crit

/-- C6 (confirmed): for every station with positive chord and positive sector
width, panelBucklingStrain returns -Nxx/(totalHeight*E) with
Nxx = 2*(pi/L)**2*(sqrt(D1*D2) + D3), L = chord[i]*(loc[idx+1]-loc[idx]),
D1 = D[0,0], D2 = D[1,1], D3 = D[0,1] + 2*D[2,2]. -/
theorem panelBucklingStrain_spec (chord : ℕ → ℝ) (upperCS : ℕ → PanelSection)
    (sector_idx_strain : ℕ → ℕ) (i : ℕ)
    (hc : 0 < chord i)
    (hw : (upperCS i).loc (sector_idx_strain i) <
      (upperCS i).loc (sector_idx_strain i + 1)) :
    panelBucklingStrain chord upperCS sector_idx_strain i =
      -(2 * (Real.pi / (chord i * ((upperCS i).loc (sector_idx_strain i + 1) -
            (upperCS i).loc (sector_idx_strain i)))) ^ 2 *
          (Real.sqrt (((upperCS i).compositeMatrices (sector_idx_strain i)).D 0 0 *
              ((upperCS i).compositeMatrices (sector_idx_strain i)).D 1 1) +
            (((upperCS i).compositeMatrices (sector_idx_strain i)).D 0 1 +
              2 * ((upperCS i).compositeMatrices (sector_idx_strain i)).D 2 2))) /
        (((upperCS i).compositeMatrices (sector_idx_strain i)).totalHeight *
          (upperCS i).effectiveEAxial (sector_idx_strain i)) := by
  simp only [panelBucklingStrain]
  rw [div_div]

/-- A concrete panel section for the C6 witness: loc k = k, unit matrices,
unit height and unit modulus. -/
def panelSectionEx : PanelSection :=
  ⟨fun k => (k : ℝ), fun _ => ⟨fun _ _ => 1, fun _ _ => 1, fun _ _ => 1, 1⟩,
    fun _ => 1⟩

/-- Witness for C6 at the concrete station: unit chord, panelSectionEx,
sector index 0. -/
theorem panelBucklingStrain_spec_witness :
    panelBucklingStrain (fun _ => (1:ℝ)) (fun _ => panelSectionEx) (fun _ => 0) 0 =
      -(2 * (Real.pi / ((1:ℝ) * (panelSectionEx.loc (0 + 1) - panelSectionEx.loc 0))) ^ 2 *
          (Real.sqrt ((panelSectionEx.compositeMatrices 0).D 0 0 *
              (panelSectionEx.compositeMatrices 0).D 1 1) +
            ((panelSectionEx.compositeMatrices 0).D 0 1 +
              2 * (panelSectionEx.compositeMatrices 0).D 2 2))) /
        ((panelSectionEx.compositeMatrices 0).totalHeight *
          panelSectionEx.effectiveEAxial 0) :=
  panelBucklingStrain_spec (fun _ => (1:ℝ)) (fun _ => panelSectionEx) (fun _ => 0) 0
    (by norm_num) (by norm_num [panelSectionEx])

end RealModels

end RotorSE
